import Mathlib

/-!
Verification of the PyPomes-JWT token registry against its specification.

The development is a shallow embedding of `src/pypomes_jwt/jwt_registry.py`
(the canonical account-keyed registry) and of `jwt_verify_request` from
`src/pypomes_jwt/jwt_pomes.py`.

Modelling conventions:
* A Python claim dictionary is an association list with Python `dict`
  semantics (`dlookup` finds the unique binding, `dinsert` replaces in place
  or appends, `update` folds `dinsert`).
* The external signer (`jwt.encode` from PyJWT) is modelled by a record
  holding the header fields and payload it would sign: signing is
  deterministic, so two encodes of equal inputs produce equal tokens, and a
  non-verifying decode recovers the payload (as `jwt_get_claims` does).
* The ISO-8601 rendering `datetime.fromtimestamp(t, tz=utc).isoformat()` is
  injective in `t`; it is modelled by the dedicated value `JVal.iso t`.
* The relational store is a list of rows plus an auto-increment counter; a
  transaction is the `pending` view, made durable by `commit`, discarded by
  `rollback`.  Each `db_*` call of `pypomes_db` consumes one operation index
  of a fault schedule `faults : Nat → Bool`; a faulted call appends to the
  `errors` list of the Python code, which the registry code turns into a
  raised `RuntimeError` (modelled by `Except.error`).
* `str_random` (external, from pypomes_core) is an oracle: the fresh `jti`
  string of an issuance is an input (`IssueEnv.jti`).
-/

namespace PyPomesJwt

/-- A JSON/claim value: strings, integers (timestamps, durations), and the
ISO-8601 rendering of a timestamp (`datetime.fromtimestamp(t).isoformat()`,
kept abstract as the timestamp it renders, the rendering being injective). -/
inductive JVal where
  | str (s : String)
  | int (n : Int)
  | iso (t : Int)
  deriving DecidableEq, Repr

/-- A Python dictionary with string keys, as an association list. -/
abbrev Dict := List (String × JVal)

/-- `d.get(key)`. -/
def dlookup : Dict → String → Option JVal
  | [], _ => none
  | (k, v) :: rest, key => if k == key then some v else dlookup rest key

/-- `d[key] = val`: replace the binding in place, or append a new one
(Python dicts keep insertion order and update in place). -/
def dinsert : Dict → String → JVal → Dict
  | [], key, val => [(key, val)]
  | (k, v) :: rest, key, val =>
    if k == key then (k, val) :: rest else (k, v) :: dinsert rest key val

/-- `d.update(other)`. -/
def dupdate (d other : Dict) : Dict :=
  other.foldl (fun acc kv => dinsert acc kv.1 kv.2) d

/-- Python truthiness of an optional integer (`None` and `0` are falsy). -/
def pyTruthyInt : Option Int → Bool
  | none => false
  | some n => n != 0

/-- Python truthiness of a claim value (empty string and `0` are falsy). -/
def pyTruthyVal : JVal → Bool
  | .str s => s != ""
  | .int n => n != 0
  | .iso _ => true

/-- Python truthiness of an optional dictionary (`None` and `{}` are falsy). -/
def pyTruthyDict : Option Dict → Bool
  | none => false
  | some d => !d.isEmpty

/-- A signed JWT as the deterministic signer produces it: header fields
`alg`, `typ = "JWT"`, `kid`, the signed payload, and the signing key.
`jwt.encode` is injective on these inputs, so the record stands for the
token string. -/
structure Token where
  alg : String
  kid : String
  payload : Dict
  key : String
  deriving DecidableEq, Repr

/-- `jwt.encode(payload=..., key=..., algorithm=..., headers={"kid": ...})`. -/
def jwt_encode (payload : Dict) (key : String) (algorithm : String) (kid : String) : Token :=
  { alg := algorithm, kid := kid, payload := payload, key := key }

/-- The `JwtConfig` enum: process-wide issuance parameters read from the
environment at import time. -/
structure Config where
  encodingKey : String
  decodingKey : String
  defaultAlgorithm : String
  accountLimit : Int
  deriving DecidableEq, Repr

/-- One entry of `JwtRegistry.access_registry`. -/
structure AccountData where
  accessMaxAge : Int
  refreshMaxAge : Int
  graceInterval : Option Int
  claims : Dict
  deriving DecidableEq, Repr

/-- `JwtRegistry.access_registry`: account id to account data. -/
abbrev Registry := List (String × AccountData)

/-- `self.access_registry.get(account_id)`. -/
def regGet : Registry → String → Option AccountData
  | [], _ => none
  | (k, v) :: rest, key => if k == key then some v else regGet rest key

/-- `self.access_registry.pop(account_id, None)`: the registry without the
entry, and the entry that was removed, if any. -/
def regPop : Registry → String → Registry × Option AccountData
  | [], _ => ([], none)
  | (k, v) :: rest, key =>
    if k == key then (rest, some v)
    else
      let (rest', popped) := regPop rest key
      ((k, v) :: rest', popped)

/-- `JwtRegistry.add_account`: inserts the account entry unless the id is
already registered (then a warning is logged and nothing changes). -/
def add_account (reg : Registry) (account_id : String) (claims : Dict)
    (access_max_age refresh_max_age : Int) (grace_interval : Option Int) : Registry :=
  match regGet reg account_id with
  | some _ => reg
  | none =>
      reg ++ [(account_id, { accessMaxAge := access_max_age,
                             refreshMaxAge := refresh_max_age,
                             graceInterval := grace_interval,
                             claims := claims })]

/-- Per-issuance oracle inputs: the clock reading
`int(datetime.now(tz=utc).timestamp())` and the fresh string produced by
`str_random(size=32, chars=ascii_letters + digits)`. -/
structure IssueEnv where
  now : Int
  jti : String
  deriving DecidableEq, Repr

/-- Python string comparison: lexicographic on Unicode code points. -/
def pyCharsLt : List Char → List Char → Bool
  | [], [] => false
  | [], _ :: _ => true
  | _ :: _, [] => false
  | c :: cs, d :: ds =>
      if c.toNat < d.toNat then true
      else if d.toNat < c.toNat then false
      else pyCharsLt cs ds

/-- `a < b` on Python strings. -/
def pyStrLt (a b : String) : Bool := pyCharsLt a.data b.data

/-- Error raised by `JwtRegistry.__get_account_data`. -/
def noAccessMsg (account_id : String) : String :=
  "No JWT access data found for " ++ account_id

/-- `JwtRegistry.issue_token`: validate `nature` and `duration`, then build
the claim set and sign a single unpersisted token with header `kid = nature`.
Mirrors `jwt_registry.py` lines 153-219. -/
def issue_token (cfg : Config) (reg : Registry) (env : IssueEnv)
    (account_id nature : String) (duration : Int)
    (grace_interval : Option Int) (claims : Option Dict) : Except String Token :=
  if nature.length != 1 || pyStrLt nature "A" || pyStrLt "Z" nature then
    .error ("Invalid nature " ++ nature)
  else if duration < 60 then
    .error ("Invalid duration " ++ toString duration)
  else
    match regGet reg account_id with
    | none => .error (noAccessMsg account_id)
    | some account_data =>
        let current_claims : Dict := []
        let current_claims :=
          match dlookup account_data.claims "iss" with
          | some issVal =>
              if pyTruthyVal issVal then dinsert current_claims "iss" issVal
              else current_claims
          | none => current_claims
        let current_claims :=
          if pyTruthyDict claims then dupdate current_claims (claims.getD [])
          else current_claims
        let current_claims := dinsert current_claims "jti" (.str env.jti)
        let current_claims := dinsert current_claims "sub" (.str account_id)
        let just_now := env.now
        let current_claims := dinsert current_claims "iat" (.int just_now)
        let current_claims :=
          if pyTruthyInt grace_interval then
            let nbf := just_now + grace_interval.getD 0
            dinsert (dinsert current_claims "nbf" (.int nbf)) "valid-from" (.iso nbf)
          else
            dinsert current_claims "valid-from" (.iso just_now)
        let current_claims := dinsert current_claims "exp" (.int (just_now + duration))
        let current_claims :=
          dinsert current_claims "valid-until" (.iso (just_now + duration))
        .ok (jwt_encode current_claims cfg.encodingKey cfg.defaultAlgorithm nature)

/-- One row of the persisted token table (logical schema of §6: the column
names are configuration-supplied and abstracted away; `decoder` holds the
base64url-encoded verification key, its encoding abstracted injectively). -/
structure TokenRow where
  kid : Nat
  account : String
  token : Token
  algorithm : String
  decoder : String
  deriving DecidableEq, Repr

/-- The store plus one open connection: `committed` is the durable table,
`pending` the open transaction's view (made durable by `db_commit`,
discarded by `db_rollback`), `nextId` the auto-increment counter behind the
`kid` primary-key column, `opIdx` the index of the next `db_*` call in the
fault schedule, and `rolledBack` records whether a rollback was issued. -/
structure DbSt where
  committed : List TokenRow
  pending : List TokenRow
  nextId : Nat
  opIdx : Nat
  rolledBack : Bool
  deriving DecidableEq, Repr

/-- Does the next `db_*` call fail (append to the Python `errors` list)? -/
def opFails (faults : Nat → Bool) (st : DbSt) : Bool := faults st.opIdx

/-- Consume one operation index of the fault schedule. -/
def bump (st : DbSt) : DbSt := { st with opIdx := st.opIdx + 1 }

/-- Python `sys.maxsize` on a 64-bit platform. -/
def sysMaxsize : Int := 2 ^ 63 - 1

/-- `payload.get(key, dflt)` where an integer is expected. -/
def getIntClaim (d : Dict) (key : String) (dflt : Int) : Int :=
  match dlookup d key with
  | some (.int n) => n
  | _ => dflt

/-- Accumulator of the row scan in `_jwt_persist_token`. -/
structure ScanAcc where
  oldestTs : Int
  oldestId : Option Nat
  existingIds : List Nat
  expired : List Nat
  deriving DecidableEq, Repr

/-- One iteration of the `for rec in recs` loop of `_jwt_persist_token`:
collect the expired row ids, track the row with the smallest `iat` seen so
far (over ALL rows, expired ones included), and record every id. -/
def scanStep (now : Int) (acc : ScanAcc) (rec : Nat × Token) : ScanAcc :=
  let exp := getIntClaim rec.2.payload "exp" sysMaxsize
  let acc := if exp < now then { acc with expired := acc.expired ++ [rec.1] } else acc
  let iat := getIntClaim rec.2.payload "iat" sysMaxsize
  let acc :=
    if iat < acc.oldestTs then { acc with oldestTs := iat, oldestId := some rec.1 }
    else acc
  { acc with existingIds := acc.existingIds ++ [rec.1] }

/-- Initial accumulator: `oldest_ts = sys.maxsize`, `oldest_id = None`. -/
def scanInit : ScanAcc :=
  { oldestTs := sysMaxsize, oldestId := none, existingIds := [], expired := [] }

/-- Rows of the table that belong to `account_id` (the `where_data` filter). -/
def rowsFor (rows : List TokenRow) (account_id : String) : List TokenRow :=
  rows.filter (fun r => r.account == account_id)

/-- `SELECT kid, token FROM table WHERE account = account_id`. -/
def selectRecs (rows : List TokenRow) (account_id : String) : List (Nat × Token) :=
  (rowsFor rows account_id).map (fun r => (r.kid, r.token))

/-- `DELETE FROM table WHERE kid IN kids`. -/
def deleteKids (rows : List TokenRow) (kids : List Nat) : List TokenRow :=
  rows.filter (fun r => !(kids.contains r.kid))

/-- `DELETE FROM table WHERE kid = oldest_id` (`oldest_id` may be `None`,
in which case no row matches). -/
def deleteKid (rows : List TokenRow) (kid? : Option Nat) : List TokenRow :=
  rows.filter (fun r => !(kid? == some r.kid))

/-- `SELECT kid FROM table WHERE account = account_id` with the
`kid NOT IN existing` clause added only when `existing` is non-empty
(mirroring the `where_clause` construction of `_jwt_persist_token`). -/
def selectNewIds (rows : List TokenRow) (account_id : String) (existing : List Nat) : List Nat :=
  if existing.isEmpty then (rowsFor rows account_id).map (fun r => r.kid)
  else ((rowsFor rows account_id).map (fun r => r.kid)).filter (fun k => !(existing.contains k))

/-- The guard `0 < JwtConfig.ACCOUNT_LIMIT.value <= len(recs) - len(expired)`
of the oldest-row eviction. -/
def evictCond (cfg : Config) (recsLen expiredLen : Nat) : Prop :=
  0 < cfg.accountLimit ∧ cfg.accountLimit ≤ (recsLen : Int) - (expiredLen : Int)

instance (cfg : Config) (a b : Nat) : Decidable (evictCond cfg a b) := by
  unfold evictCond
  infer_instance

/-- `_jwt_persist_token` of `jwt_registry.py` (lines 355-482): select the
account's rows, decode each row's payload collecting the expired ids and the
id of the smallest-`iat` row, delete the expired rows, delete the
smallest-`iat` row when the account limit is reached, insert the candidate
token, and read back the freshly assigned storage id (`require_count=1`).
All within the caller's transaction (`committable=False` throughout); a
failed store call raises (`Except.error`) at once. -/
def jwt_persist_token (faults : Nat → Bool) (cfg : Config) (now : Int)
    (account_id : String) (jwt_token : Token) (st : DbSt) : DbSt × Except String Nat :=
  if opFails faults st then (bump st, .error "db_select failed") else
  let st1 := bump st
  let recs := selectRecs st1.pending account_id
  let scan := recs.foldl (scanStep now) scanInit
  if scan.expired.isEmpty = false ∧ opFails faults st1 = true then
    (bump st1, .error "db_delete failed")
  else
  let st2 :=
    if scan.expired.isEmpty then st1
    else { bump st1 with pending := deleteKids st1.pending scan.expired }
  if evictCond cfg recs.length scan.expired.length ∧ opFails faults st2 = true then
    (bump st2, .error "db_delete failed")
  else
  let st3 :=
    if evictCond cfg recs.length scan.expired.length then
      { bump st2 with pending := deleteKid st2.pending scan.oldestId }
    else st2
  if opFails faults st3 then (bump st3, .error "db_insert failed") else
  let newRow : TokenRow :=
    { kid := st3.nextId, account := account_id, token := jwt_token,
      algorithm := cfg.defaultAlgorithm, decoder := cfg.decodingKey }
  let st4 := { bump st3 with pending := st3.pending ++ [newRow], nextId := st3.nextId + 1 }
  if opFails faults st4 then (bump st4, .error "db_select failed") else
  let st5 := bump st4
  match selectNewIds st5.pending account_id scan.existingIds with
  | [k] => (st5, .ok k)
  | _ => (st5, .error "require_count not met")

/-- The return data of `issue_tokens` (`access-token`, `created-in`,
`expires-in`, `refresh-token`; the two `.get` reads may in principle be
absent, hence the options). -/
structure TokenData where
  accessToken : Token
  createdIn : Option JVal
  expiresIn : Option JVal
  refreshToken : Token
  deriving DecidableEq, Repr

/-- The claim set `issue_tokens` builds before signing (lines 254-275 of
`jwt_registry.py`): a copy of the registered claims, the caller's claims
merged on top, then `jti`, `sub`, `iat`, the grace-dependent `nbf` and
`valid-from`, the refresh `exp` and `valid-until`. -/
def buildPairClaims (env : IssueEnv) (account_id : String) (account_data : AccountData)
    (account_claims : Option Dict) : Dict :=
  let current_claims := account_data.claims
  let current_claims :=
    if pyTruthyDict account_claims then dupdate current_claims (account_claims.getD [])
    else current_claims
  let current_claims := dinsert current_claims "jti" (.str env.jti)
  let current_claims := dinsert current_claims "sub" (.str account_id)
  let just_now := env.now
  let current_claims := dinsert current_claims "iat" (.int just_now)
  let current_claims :=
    if pyTruthyInt account_data.graceInterval then
      let nbf := just_now + account_data.graceInterval.getD 0
      dinsert (dinsert current_claims "nbf" (.int nbf)) "valid-from" (.iso nbf)
    else
      dinsert current_claims "valid-from" (.iso just_now)
  let refresh_exp := just_now + account_data.refreshMaxAge
  let current_claims := dinsert current_claims "exp" (.int refresh_exp)
  dinsert current_claims "valid-until" (.iso refresh_exp)

/-- The row update of `UPDATE table SET token = ... WHERE kid = token_id`:
the stored candidate is replaced by the definitive refresh token. -/
def updateTok (token_id : Nat) (tok : Token) (r : TokenRow) : TokenRow :=
  if r.kid == token_id then { r with token := tok } else r

/-- `JwtRegistry.issue_tokens` (`jwt_registry.py` lines 221-332): build the
claim set from the registered entry (a copy) merged with the caller's
claims, sign the Phase-1 candidate refresh token with `kid="R0"`, persist it
via `jwt_persist_token`, re-sign with `kid="R<token_id>"`, update the stored
row, commit or roll back when this call owns the transaction (`db_conn`
false), and finally sign the access token with `kid="A<token_id>"`.
The registry is returned so that (absence of) mutation of the registered
entry is part of the function's result. -/
def issue_tokens (faults : Nat → Bool) (cfg : Config) (reg : Registry) (env : IssueEnv)
    (account_id : String) (account_claims : Option Dict) (db_conn : Bool)
    (st : DbSt) : Registry × DbSt × Except String TokenData :=
  match regGet reg account_id with
  | none => (reg, st, .error (noAccessMsg account_id))
  | some account_data =>
    let current_claims := buildPairClaims env account_id account_data account_claims
    let just_now := env.now
    let refresh_token :=
      jwt_encode current_claims cfg.encodingKey cfg.defaultAlgorithm "R0"
    if db_conn = false ∧ opFails faults st = true then
      (reg, bump st, .error "db_connect failed")
    else
    let st0 := if db_conn then st else { bump st with pending := st.committed }
    match jwt_persist_token faults cfg env.now account_id refresh_token st0 with
    | (st1, .error e) => (reg, st1, .error e)
    | (st1, .ok token_id) =>
      let refresh_token :=
        jwt_encode current_claims cfg.encodingKey cfg.defaultAlgorithm
          ("R" ++ toString token_id)
      let updFailed := opFails faults st1
      let st2 :=
        if updFailed then bump st1
        else
          { bump st1 with pending := st1.pending.map (updateTok token_id refresh_token) }
      if db_conn = false ∧ updFailed = true then
        (reg,
         { bump st2 with
           rolledBack := true,
           pending := if opFails faults st2 then st2.pending else st2.committed },
         .error "db_update failed")
      else if db_conn = false ∧ updFailed = false ∧ opFails faults st2 = true then
        (reg, bump st2, .error "db_commit failed")
      else if db_conn = true ∧ updFailed = true then
        (reg, st2, .error "db_update failed")
      else
      let st3 := if db_conn then st2 else { bump st2 with committed := st2.pending }
      let access_exp := just_now + account_data.accessMaxAge
      let current_claims := dinsert current_claims "exp" (.int access_exp)
      let access_token :=
        jwt_encode current_claims cfg.encodingKey cfg.defaultAlgorithm
          ("A" ++ toString token_id)
      (reg, st3,
       .ok { accessToken := access_token,
             createdIn := dlookup current_claims "iat",
             expiresIn := dlookup current_claims "exp",
             refreshToken := refresh_token })

/-- The `JwtDbConfig` `StrEnum`: its members are the configuration-supplied
table and column names. -/
structure JwtDbConfigT where
  engine : String
  table : String
  colAccount : String
  colAlgorithm : String
  colDecoder : String
  colKid : String
  colToken : String
  deriving DecidableEq, Repr

/-- Class-level attribute access on the `JwtDbConfig` enum class: only the
member names resolve; any other attribute (in particular `value`, which is a
per-member dynamic attribute) raises `AttributeError`. -/
def JwtDbConfigT.classAttr (c : JwtDbConfigT) : String → Option String
  | "ENGINE" => some c.engine
  | "TABLE" => some c.table
  | "COL_ACCOUNT" => some c.colAccount
  | "COL_ALGORITHM" => some c.colAlgorithm
  | "COL_DECODER" => some c.colDecoder
  | "COL_KID" => some c.colKid
  | "COL_TOKEN" => some c.colToken
  | _ => none

/-- `JwtRegistry.remove_account` (`jwt_registry.py` lines 125-151): pop the
in-memory entry, then issue `DELETE FROM {JwtDbConfig.value} WHERE account =
account_id` and return whether an entry existed.  Building that statement
evaluates `JwtDbConfig.value` — a class-level access with no such member —
so the f-string raises `AttributeError` (after the pop, before the delete).
The registry after the call and the outcome are returned. -/
def remove_account (dbc : JwtDbConfigT) (reg : Registry) (committed : List TokenRow)
    (account_id : String) : Registry × Except String (List TokenRow × Bool) :=
  let (reg1, account_data) := regPop reg account_id
  match dbc.classAttr "value" with
  | none => (reg1, .error "AttributeError: value")
  | some _table =>
      (reg1, .ok (committed.filter (fun r => !(r.account == account_id)),
                  account_data.isSome))

/-- `text.startswith(pat)` on the underlying characters. -/
def pyStartsWithChars : List Char → List Char → Bool
  | [], _ => true
  | _ :: _, [] => false
  | p :: ps, c :: cs => (p == c) && pyStartsWithChars ps cs

/-- Python `s.startswith(pat)`. -/
def pyStartsWith (s pat : String) : Bool := pyStartsWithChars pat.data s.data

/-- Python `s.split(sep)` for a one-character separator, on characters:
`cur` accumulates the current (reversed) segment. -/
def pySplitChars (sep : Char) (cur : List Char) : List Char → List (List Char)
  | [] => [cur.reverse]
  | c :: cs =>
      if c == sep then cur.reverse :: pySplitChars sep [] cs
      else pySplitChars sep (c :: cur) cs

/-- Python `s.split(" ")`. -/
def pySplitOnSpace (s : String) : List String :=
  (pySplitChars ' ' [] s.data).map (fun l => String.mk l)

/-- A Flask `Response` as `jwt_verify_request` builds it. -/
structure HttpResponse where
  response : String
  status : Int
  deriving DecidableEq, Repr

/-- `jwt_verify_request` of `jwt_pomes.py` (lines 221-262): `None` when the
request is valid, otherwise a 401 response.  The token validator
(`jwt_validate_token`, the external Signer/Verifier capability) is a
parameter: its failure text is surfaced unchanged as the response body. -/
def jwt_verify_request (validate : String → Except String Dict)
    (auth_header : Option String) : Option HttpResponse :=
  match auth_header with
  | some h =>
      if h != "" && pyStartsWith h "Bearer " then
        let token := (pySplitOnSpace h).getD 1 ""
        match validate token with
        | .ok _ => none
        | .error e => some { response := e, status := 401 }
      else some { response := "Authorization failed", status := 401 }
  | none => some { response := "Authorization failed", status := 401 }

/-! ## Derived notions used by the claims -/

/-- The `exp` claim a stored row's token carries, as the persist routine
reads it. -/
def rowExp (r : TokenRow) : Int := getIntClaim r.token.payload "exp" sysMaxsize

/-- The `iat` claim a stored row's token carries, as the persist routine
reads it. -/
def rowIat (r : TokenRow) : Int := getIntClaim r.token.payload "iat" sysMaxsize

/-- The rows of `account_id` that are not expired at time `t`
(`exp < t` is the expiry test of `_jwt_persist_token`). -/
def liveRows (rows : List TokenRow) (account_id : String) (t : Int) : List TokenRow :=
  (rowsFor rows account_id).filter (fun r => !(decide (rowExp r < t)))

/-- Well-formedness the auto-increment `kid` column guarantees: storage ids
are pairwise distinct and below the counter. -/
def rowsWf (rows : List TokenRow) (nextId : Nat) : Prop :=
  (rows.map TokenRow.kid).Nodup ∧ ∀ r ∈ rows, r.kid < nextId

/-- Every stored row's `iat` is a real timestamp (below `sys.maxsize`);
true of every row the issuer writes. -/
def iatBounded (rows : List TokenRow) : Prop :=
  ∀ r ∈ rows, rowIat r < sysMaxsize

/-- The store invariant of the limit claim: well-formed ids, real `iat`
timestamps, and at most `accountLimit` rows per account. -/
def storeInv (cfg : Config) (rows : List TokenRow) (nextId : Nat) : Prop :=
  rowsWf rows nextId ∧ iatBounded rows ∧
    ∀ a, ((rowsFor rows a).length : Int) ≤ cfg.accountLimit

/-- A fresh, empty store. -/
def dbInit : DbSt :=
  { committed := [], pending := [], nextId := 1, opIdx := 0, rolledBack := false }

/-- The inputs of one `issue_tokens` call in a sequence. -/
structure CallSpec where
  faults : Nat → Bool
  env : IssueEnv
  account_id : String
  account_claims : Option Dict

/-- Run a sequence of `issue_tokens` calls, each owning its transaction
(`db_conn = None`), against a fixed registry. -/
def runCalls (cfg : Config) (reg : Registry) (st : DbSt) : List CallSpec → DbSt
  | [] => st
  | c :: rest =>
      runCalls cfg reg
        (issue_tokens c.faults cfg reg c.env c.account_id c.account_claims false st).2.1 rest

/-- The transaction view `_jwt_persist_token` leaves behind on success:
expired rows deleted, the smallest-`iat` row deleted when the limit guard
fires, the candidate row appended with the next storage id. -/
def newRowOf (cfg : Config) (account_id : String) (jwt_token : Token)
    (nextId : Nat) : TokenRow :=
  { kid := nextId, account := account_id, token := jwt_token,
    algorithm := cfg.defaultAlgorithm, decoder := cfg.decodingKey }

def persistPendingPure (cfg : Config) (now : Int) (account_id : String) (jwt_token : Token)
    (pending : List TokenRow) (nextId : Nat) : List TokenRow :=
  let recs := selectRecs pending account_id
  let scan := recs.foldl (scanStep now) scanInit
  let p2 := if scan.expired.isEmpty then pending else deleteKids pending scan.expired
  let p3 :=
    if evictCond cfg recs.length scan.expired.length then deleteKid p2 scan.oldestId
    else p2
  p3 ++ [newRowOf cfg account_id jwt_token nextId]

/-! ## Dictionary lemmas -/

theorem dlookup_dinsert_self : ∀ (d : Dict) (k : String) (v : JVal),
    dlookup (dinsert d k v) k = some v
  | [], k, v => by simp [dinsert, dlookup]
  | (k1, v1) :: rest, k, v => by
      by_cases h : (k1 == k) = true
      · simp [dinsert, dlookup, h]
      · simp only [Bool.not_eq_true] at h
        simp [dinsert, dlookup, h, dlookup_dinsert_self rest k v]

theorem dlookup_dinsert_ne : ∀ (d : Dict) (k k2 : String) (v : JVal),
    (k == k2) = false → dlookup (dinsert d k v) k2 = dlookup d k2
  | [], k, k2, v, h => by simp [dinsert, dlookup, h]
  | (k1, v1) :: rest, k, k2, v, h => by
      by_cases h1 : (k1 == k) = true
      · have h2 : (k1 == k2) = false := by
          have hk : k1 = k := by simpa using h1
          simpa [hk] using h
        simp [dinsert, dlookup, h1, h2]
      · simp only [Bool.not_eq_true] at h1
        by_cases h2 : (k1 == k2) = true
        · simp [dinsert, dlookup, h1, h2]
        · simp only [Bool.not_eq_true] at h2
          simp [dinsert, dlookup, h1, h2, dlookup_dinsert_ne rest k k2 v h]

theorem dlookup_dupdate_not_mem : ∀ (c d : Dict) (k : String),
    (∀ kv ∈ c, (kv.1 == k) = false) → dlookup (dupdate d c) k = dlookup d k
  | [], d, k, _ => by simp [dupdate]
  | kv :: rest, d, k, h => by
      have hstep : dupdate d (kv :: rest) = dupdate (dinsert d kv.1 kv.2) rest := by
        simp [dupdate]
      rw [hstep,
        dlookup_dupdate_not_mem rest (dinsert d kv.1 kv.2) k
          (fun x hx => h x (List.mem_cons_of_mem kv hx)),
        dlookup_dinsert_ne d kv.1 k kv.2 (h kv (List.mem_cons_self kv rest))]

/-! ## Concrete fixtures used by witnesses and counterexamples -/

/-- A configuration with account limit 2 (scenario 1 of §8). -/
def cfgW : Config :=
  { encodingKey := "K", decodingKey := "D", defaultAlgorithm := "HS256", accountLimit := 2 }

/-- Account `u1`: access 60 s, refresh 3600 s, grace interval 0. -/
def adW : AccountData :=
  { accessMaxAge := 60, refreshMaxAge := 3600, graceInterval := some 0,
    claims := [("iss", .str "svc")] }

/-- A registry holding only `u1`. -/
def regW : Registry := [("u1", adW)]

/-- One concrete issuance instant. -/
def envW : IssueEnv := { now := 0, jti := "jti1" }

/-- Extract the token of a successful issuance (dummy token on error). -/
def okTok (r : Except String Token) : Token :=
  match r with
  | .ok t => t
  | .error _ => jwt_encode [] "" "" ""

/-! ## Scan-loop lemmas -/

/-- The expiry test the scan applies to a selected record. -/
def recExpired (now : Int) (rc : Nat × Token) : Bool :=
  decide (getIntClaim rc.2.payload "exp" sysMaxsize < now)

/-- The `iat` the scan reads from a selected record. -/
def recIat (rc : Nat × Token) : Int := getIntClaim rc.2.payload "iat" sysMaxsize

theorem scanStep_expired_pos (now : Int) (acc : ScanAcc) (rc : Nat × Token)
    (h : recExpired now rc = true) :
    (scanStep now acc rc).expired = acc.expired ++ [rc.1] := by
  simp only [recExpired, decide_eq_true_eq] at h
  simp only [scanStep, if_pos h]
  split <;> rfl

theorem scanStep_expired_neg (now : Int) (acc : ScanAcc) (rc : Nat × Token)
    (h : recExpired now rc = false) :
    (scanStep now acc rc).expired = acc.expired := by
  simp only [recExpired, decide_eq_false_iff_not] at h
  simp only [scanStep, if_neg h]
  split <;> rfl

theorem scanStep_existing (now : Int) (acc : ScanAcc) (rc : Nat × Token) :
    (scanStep now acc rc).existingIds = acc.existingIds ++ [rc.1] := by
  simp only [scanStep]
  split <;> split <;> rfl

theorem scanStep_oldestId_pos (now : Int) (acc : ScanAcc) (rc : Nat × Token)
    (h : recIat rc < acc.oldestTs) :
    (scanStep now acc rc).oldestId = some rc.1 := by
  simp only [recIat] at h
  simp only [scanStep]
  split <;> simp [if_pos h]

theorem scanStep_oldestId_neg (now : Int) (acc : ScanAcc) (rc : Nat × Token)
    (h : ¬ recIat rc < acc.oldestTs) :
    (scanStep now acc rc).oldestId = acc.oldestId := by
  simp only [recIat] at h
  simp only [scanStep]
  split <;> simp [if_neg h]

theorem scanStep_oldestTs_pos (now : Int) (acc : ScanAcc) (rc : Nat × Token)
    (h : recIat rc < acc.oldestTs) :
    (scanStep now acc rc).oldestTs = recIat rc := by
  simp only [recIat] at h ⊢
  simp only [scanStep]
  split <;> simp [if_pos h]

theorem scanStep_oldestTs_neg (now : Int) (acc : ScanAcc) (rc : Nat × Token)
    (h : ¬ recIat rc < acc.oldestTs) :
    (scanStep now acc rc).oldestTs = acc.oldestTs := by
  simp only [recIat] at h
  simp only [scanStep]
  split <;> simp [if_neg h]

theorem scan_expired_eq (now : Int) : ∀ (recs : List (Nat × Token)) (acc : ScanAcc),
    (recs.foldl (scanStep now) acc).expired
      = acc.expired ++ (recs.filter (recExpired now)).map Prod.fst
  | [], acc => by simp
  | rc :: rest, acc => by
      rw [List.foldl_cons, scan_expired_eq now rest (scanStep now acc rc)]
      by_cases h : recExpired now rc = true
      · rw [scanStep_expired_pos now acc rc h]
        simp [List.filter_cons, h]
      · simp only [Bool.not_eq_true] at h
        rw [scanStep_expired_neg now acc rc h]
        simp [List.filter_cons, h]

theorem scan_existing_eq (now : Int) : ∀ (recs : List (Nat × Token)) (acc : ScanAcc),
    (recs.foldl (scanStep now) acc).existingIds
      = acc.existingIds ++ recs.map Prod.fst
  | [], acc => by simp
  | rc :: rest, acc => by
      rw [List.foldl_cons, scan_existing_eq now rest (scanStep now acc rc),
        scanStep_existing]
      simp

theorem scan_oldest_isSome_mono (now : Int) :
    ∀ (recs : List (Nat × Token)) (acc : ScanAcc),
      acc.oldestId.isSome = true →
      ((recs.foldl (scanStep now) acc).oldestId).isSome = true
  | [], _, h => h
  | rc :: rest, acc, h => by
      rw [List.foldl_cons]
      refine scan_oldest_isSome_mono now rest (scanStep now acc rc) ?_
      by_cases hc : recIat rc < acc.oldestTs
      · rw [scanStep_oldestId_pos now acc rc hc]
        rfl
      · rw [scanStep_oldestId_neg now acc rc hc]
        exact h

theorem scan_oldest_mem (now : Int) :
    ∀ (recs : List (Nat × Token)) (acc : ScanAcc) (k : Nat),
      (recs.foldl (scanStep now) acc).oldestId = some k →
      acc.oldestId = some k ∨ k ∈ recs.map Prod.fst
  | [], acc, k, h => Or.inl h
  | rc :: rest, acc, k, h => by
      rw [List.foldl_cons] at h
      rcases scan_oldest_mem now rest (scanStep now acc rc) k h with h1 | h1
      · by_cases hc : recIat rc < acc.oldestTs
        · rw [scanStep_oldestId_pos now acc rc hc] at h1
          right
          rw [← Option.some.inj h1]
          simp
        · rw [scanStep_oldestId_neg now acc rc hc] at h1
          exact Or.inl h1
      · right
        simp only [List.map_cons, List.mem_cons]
        exact Or.inr h1

theorem scan_oldest_progress (now : Int) :
    ∀ (recs : List (Nat × Token)) (acc : ScanAcc),
      (∃ rc ∈ recs, recIat rc < acc.oldestTs) →
      ((recs.foldl (scanStep now) acc).oldestId).isSome = true
  | [], _, h => by simp at h
  | rc :: rest, acc, h => by
      rw [List.foldl_cons]
      by_cases hc : recIat rc < acc.oldestTs
      · refine scan_oldest_isSome_mono now rest (scanStep now acc rc) ?_
        rw [scanStep_oldestId_pos now acc rc hc]
        rfl
      · rcases h with ⟨rc2, hmem, hlt⟩
        rcases List.mem_cons.mp hmem with rfl | hmem2
        · exact absurd hlt hc
        · refine scan_oldest_progress now rest (scanStep now acc rc) ⟨rc2, hmem2, ?_⟩
          rw [scanStep_oldestTs_neg now acc rc hc]
          exact hlt

theorem scan_oldest_some_of_small (now : Int) (recs : List (Nat × Token))
    (hne : recs ≠ []) (hsm : ∀ rc ∈ recs, recIat rc < sysMaxsize) :
    ∃ k, (recs.foldl (scanStep now) scanInit).oldestId = some k
      ∧ k ∈ recs.map Prod.fst := by
  have hsome : ((recs.foldl (scanStep now) scanInit).oldestId).isSome = true := by
    rcases recs with _ | ⟨rc, rest⟩
    · exact absurd rfl hne
    · exact scan_oldest_progress now (rc :: rest) scanInit
        ⟨rc, List.mem_cons_self rc rest, hsm rc (List.mem_cons_self rc rest)⟩
  rcases ho : (recs.foldl (scanStep now) scanInit).oldestId with _ | k
  · rw [ho] at hsome
    simp at hsome
  · rcases scan_oldest_mem now recs scanInit k ho with h1 | h1
    · simp [scanInit] at h1
    · exact ⟨k, rfl, h1⟩

/-! ## Persist-routine characterization -/

theorem persist_frame (faults : Nat → Bool) (cfg : Config) (now : Int)
    (account_id : String) (jwt_token : Token) (st : DbSt) :
    ((jwt_persist_token faults cfg now account_id jwt_token st).1).committed = st.committed
    ∧ ((jwt_persist_token faults cfg now account_id jwt_token st).1).rolledBack = st.rolledBack
    ∧ st.nextId ≤ ((jwt_persist_token faults cfg now account_id jwt_token st).1).nextId := by
  unfold jwt_persist_token
  dsimp only
  repeat' split
  all_goals simp [bump]

theorem persist_ok_char (faults : Nat → Bool) (cfg : Config) (now : Int)
    (account_id : String) (jwt_token : Token) (st st' : DbSt) (id : Nat)
    (h : jwt_persist_token faults cfg now account_id jwt_token st = (st', .ok id)) :
    st'.pending = persistPendingPure cfg now account_id jwt_token st.pending st.nextId
    ∧ st'.committed = st.committed
    ∧ st'.nextId = st.nextId + 1
    ∧ selectNewIds st'.pending account_id
        (((selectRecs st.pending account_id).foldl (scanStep now) scanInit).existingIds)
        = [id] := by
  unfold jwt_persist_token at h
  dsimp only at h
  repeat' split at h
  all_goals simp only [Prod.mk.injEq, reduceCtorEq, and_false, false_and] at h
  all_goals obtain ⟨hst, hid⟩ := h
  all_goals rw [Except.ok.injEq] at hid
  all_goals subst hst
  all_goals subst hid
  all_goals refine ⟨?_, rfl, rfl, ?_⟩
  all_goals simp_all [persistPendingPure, newRowOf, bump]
/-! ## Issue-tokens characterization -/

theorem persist_frame_eq (faults : Nat → Bool) (cfg : Config) (now : Int)
    (account_id : String) (jwt_token : Token) (st st1 : DbSt) (r : Except String Nat)
    (heq : jwt_persist_token faults cfg now account_id jwt_token st = (st1, r)) :
    st1.committed = st.committed ∧ st1.rolledBack = st.rolledBack ∧ st.nextId ≤ st1.nextId := by
  have hf := persist_frame faults cfg now account_id jwt_token st
  rw [heq] at hf
  exact hf

theorem persist_err_helper (faults : Nat → Bool) (cfg : Config) (now : Int)
    (account_id : String) (tok : Token) (stIn st1 stOrig : DbSt) (r : Except String Nat)
    (heq : jwt_persist_token faults cfg now account_id tok stIn = (st1, r))
    (hc : stIn.committed = stOrig.committed) (hn : stIn.nextId = stOrig.nextId) :
    st1.committed = stOrig.committed ∧ stOrig.nextId ≤ st1.nextId := by
  obtain ⟨h1, _, h3⟩ := persist_frame_eq faults cfg now account_id tok stIn st1 r heq
  constructor
  · rw [h1, hc]
  · omega

theorem issue_tokens_err (faults : Nat → Bool) (cfg : Config) (reg : Registry)
    (env : IssueEnv) (account_id : String) (account_claims : Option Dict)
    (st : DbSt) (reg' : Registry) (st' : DbSt) (e : String)
    (h : issue_tokens faults cfg reg env account_id account_claims false st
          = (reg', st', .error e)) :
    st'.committed = st.committed ∧ st.nextId ≤ st'.nextId := by
  unfold issue_tokens at h
  dsimp only at h
  repeat' split at h
  all_goals simp only [Prod.mk.injEq, reduceCtorEq, and_false, false_and] at h
  all_goals obtain ⟨hreg, hst, he⟩ := h
  all_goals subst hst
  all_goals try (exact ⟨rfl, Nat.le_refl _⟩)
  all_goals try (simp [bump])
  all_goals exact persist_err_helper _ _ _ _ _ _ _ _ _ (by assumption) (by rfl) (by rfl)
theorem issue_tokens_ok_char (faults : Nat → Bool) (cfg : Config) (reg : Registry)
    (env : IssueEnv) (account_id : String) (account_claims : Option Dict)
    (st : DbSt) (reg' : Registry) (st' : DbSt) (data : TokenData)
    (h : issue_tokens faults cfg reg env account_id account_claims false st
          = (reg', st', .ok data)) :
    ∃ account_data stP token_id,
      regGet reg account_id = some account_data ∧
      jwt_persist_token faults cfg env.now account_id
          (jwt_encode (buildPairClaims env account_id account_data account_claims)
            cfg.encodingKey cfg.defaultAlgorithm "R0")
          { bump st with pending := st.committed } = (stP, .ok token_id) ∧
      data.refreshToken
        = jwt_encode (buildPairClaims env account_id account_data account_claims)
            cfg.encodingKey cfg.defaultAlgorithm ("R" ++ toString token_id) ∧
      data.accessToken
        = jwt_encode
            (dinsert (buildPairClaims env account_id account_data account_claims) "exp"
              (.int (env.now + account_data.accessMaxAge)))
            cfg.encodingKey cfg.defaultAlgorithm ("A" ++ toString token_id) ∧
      st'.committed = stP.pending.map (updateTok token_id data.refreshToken) ∧
      st'.nextId = stP.nextId := by
  unfold issue_tokens at h
  dsimp only at h
  repeat' split at h
  all_goals simp only [Prod.mk.injEq, reduceCtorEq, and_false, false_and] at h
  all_goals try (exact (Bool.false_ne_true (by assumption)).elim)
  all_goals try (exfalso; simp_all; done)
  obtain ⟨hreg, hst, hdata⟩ := h
  try rw [Except.ok.injEq] at hdata
  subst hst
  subst hdata
  exact ⟨_, _, _, (by assumption), (by assumption), rfl, rfl, rfl, rfl⟩

/-! ## Counting and well-formedness lemmas -/

theorem selectRecs_map_fst (pending : List TokenRow) (a : String) :
    (selectRecs pending a).map Prod.fst = (rowsFor pending a).map TokenRow.kid := by
  simp [selectRecs, List.map_map]

theorem selectRecs_length (pending : List TokenRow) (a : String) :
    (selectRecs pending a).length = (rowsFor pending a).length := by
  simp [selectRecs]

theorem rowsFor_filter_comm (pending : List TokenRow) (a : String) (g : TokenRow → Bool) :
    rowsFor (pending.filter g) a = (rowsFor pending a).filter g := by
  simp only [rowsFor, List.filter_filter]
  exact List.filter_congr (fun x _ => by rw [Bool.and_comm])

theorem filter_contains_length_ge (E : List Nat) (ks : List Nat)
    (hnd : E.Nodup) (hsub : ∀ e ∈ E, e ∈ ks) :
    E.length ≤ (ks.filter (fun k => E.contains k)).length := by
  have h1 : E.toFinset.card = E.length := List.toFinset_card_of_nodup hnd
  have h2 : E.toFinset ⊆ (ks.filter (fun k => E.contains k)).toFinset := by
    intro x hx
    rw [List.mem_toFinset] at hx
    rw [List.mem_toFinset, List.mem_filter]
    exact ⟨hsub x hx, by simpa using hx⟩
  calc E.length = E.toFinset.card := h1.symm
    _ ≤ (ks.filter (fun k => E.contains k)).toFinset.card := Finset.card_le_card h2
    _ ≤ (ks.filter (fun k => E.contains k)).length := List.toFinset_card_le _

theorem filter_contains_on_rows (S : List TokenRow) (E : List Nat) :
    (S.filter (fun r => E.contains r.kid)).length
      = ((S.map TokenRow.kid).filter (fun k => E.contains k)).length := by
  rw [List.filter_map]
  simp only [List.length_map]
  rfl

theorem deleteKids_count (pending : List TokenRow) (a : String) (E : List Nat)
    (hnd : E.Nodup) (hsub : ∀ e ∈ E, e ∈ (rowsFor pending a).map TokenRow.kid) :
    (rowsFor (deleteKids pending E) a).length + E.length ≤ (rowsFor pending a).length := by
  have hA : rowsFor (deleteKids pending E) a
      = (rowsFor pending a).filter (fun r => !(E.contains r.kid)) :=
    rowsFor_filter_comm pending a _
  have hB := List.length_eq_length_filter_add (l := rowsFor pending a)
    (fun r => E.contains r.kid)
  have hC := filter_contains_length_ge E ((rowsFor pending a).map TokenRow.kid) hnd hsub
  rw [← filter_contains_on_rows] at hC
  rw [hA]
  omega

theorem deleteKid_count (pending : List TokenRow) (a : String) (k : Nat)
    (hk : k ∈ (rowsFor pending a).map TokenRow.kid) :
    (rowsFor (deleteKid pending (some k)) a).length + 1 ≤ (rowsFor pending a).length := by
  have hA : rowsFor (deleteKid pending (some k)) a
      = (rowsFor pending a).filter (fun r => !((some k : Option Nat) == some r.kid)) :=
    rowsFor_filter_comm pending a _
  have hB := List.length_eq_length_filter_add (l := rowsFor pending a)
    (fun r => !((some k : Option Nat) == some r.kid))
  rcases List.mem_map.mp hk with ⟨r, hr, hrk⟩
  have hmem : r ∈ (rowsFor pending a).filter
      (fun r => !(!((some k : Option Nat) == some r.kid))) := by
    refine List.mem_filter.mpr ⟨hr, ?_⟩
    simp [hrk]
  have hlen := List.length_pos_of_mem hmem
  rw [hA]
  omega

theorem persist_count_le (cfg : Config) (now : Int) (a : String) (tok : Token)
    (pending : List TokenRow) (nid : Nat)
    (hwf : (pending.map TokenRow.kid).Nodup)
    (hiat : iatBounded pending)
    (hL : 0 < cfg.accountLimit)
    (hc : ((rowsFor pending a).length : Int) ≤ cfg.accountLimit) :
    ((rowsFor (persistPendingPure cfg now a tok pending nid) a).length : Int)
      ≤ cfg.accountLimit := by
  unfold persistPendingPure
  dsimp only
  set recs := selectRecs pending a with hrecs
  set scan := recs.foldl (scanStep now) scanInit with hscan
  have hE : scan.expired = (recs.filter (recExpired now)).map Prod.fst := by
    rw [hscan, scan_expired_eq]
    simp [scanInit]
  have hkidsnd : ((rowsFor pending a).map TokenRow.kid).Nodup :=
    (List.Sublist.map TokenRow.kid (List.filter_sublist pending)).nodup hwf
  have hEsub : List.Sublist scan.expired ((rowsFor pending a).map TokenRow.kid) := by
    rw [hE, ← selectRecs_map_fst]
    exact List.Sublist.map Prod.fst (List.filter_sublist recs)
  have hEnd : scan.expired.Nodup := hEsub.nodup hkidsnd
  have hEmem : ∀ e ∈ scan.expired, e ∈ (rowsFor pending a).map TokenRow.kid :=
    fun e he => hEsub.subset he
  have happend : ∀ (l : List TokenRow),
      (rowsFor (l ++ [newRowOf cfg a tok nid]) a).length = (rowsFor l a).length + 1 := by
    intro l
    simp [rowsFor, newRowOf, List.filter_append]
  have hSlen : recs.length = (rowsFor pending a).length := selectRecs_length pending a
  by_cases hemp : scan.expired.isEmpty
  · rw [if_pos hemp]
    have hE0 : scan.expired = [] := List.isEmpty_iff.mp hemp
    by_cases hev : evictCond cfg recs.length scan.expired.length
    · rw [if_pos hev]
      obtain ⟨hL0, hle⟩ := hev
      rw [hE0] at hle
      simp only [List.length_nil, Nat.cast_zero, sub_zero] at hle
      have hrecsne : recs ≠ [] := by
        intro h0
        rw [h0] at hle
        simp at hle
        omega
      have hsm : ∀ rc ∈ recs, recIat rc < sysMaxsize := by
        intro rc hrc
        rw [hrecs] at hrc
        rcases List.mem_map.mp hrc with ⟨r, hr, rfl⟩
        exact hiat r (List.mem_of_mem_filter hr)
      obtain ⟨k, hk, hkmem⟩ := scan_oldest_some_of_small now recs hrecsne hsm
      rw [← hscan] at hk
      rw [hk]
      have hkS : k ∈ (rowsFor pending a).map TokenRow.kid := by
        rw [← selectRecs_map_fst]
        exact hkmem
      have hd := deleteKid_count pending a k hkS
      rw [happend]
      push_cast
      omega
    · rw [if_neg hev]
      rw [happend]
      have hnle : ¬ (cfg.accountLimit ≤ (recs.length : Int) - (scan.expired.length : Int)) :=
        fun hx => hev ⟨hL, hx⟩
      rw [hE0] at hnle
      simp only [List.length_nil, Nat.cast_zero, sub_zero] at hnle
      push_cast
      omega
  · rw [if_neg hemp]
    have hd := deleteKids_count pending a scan.expired hEnd hEmem
    have hene : scan.expired ≠ [] := by
      simpa [List.isEmpty_iff] using hemp
    have hlen1 : 1 ≤ scan.expired.length := List.length_pos.mpr hene
    by_cases hev : evictCond cfg recs.length scan.expired.length
    · exfalso
      obtain ⟨hL0, hle⟩ := hev
      omega
    · rw [if_neg hev]
      rw [happend]
      have hnle : ¬ (cfg.accountLimit ≤ (recs.length : Int) - (scan.expired.length : Int)) :=
        fun hx => hev ⟨hL, hx⟩
      push_cast
      omega

theorem persistPendingPure_shape (cfg : Config) (now : Int) (a : String) (tok : Token)
    (pending : List TokenRow) (nid : Nat) :
    ∃ p3, List.Sublist p3 pending ∧
      persistPendingPure cfg now a tok pending nid
        = p3 ++ [newRowOf cfg a tok nid] := by
  unfold persistPendingPure
  dsimp only
  refine ⟨_, ?_, rfl⟩
  have h2 : List.Sublist
      (if ((selectRecs pending a).foldl (scanStep now) scanInit).expired.isEmpty then pending
       else deleteKids pending ((selectRecs pending a).foldl (scanStep now) scanInit).expired)
      pending := by
    split
    · exact List.Sublist.refl pending
    · exact List.filter_sublist pending
  split
  · exact List.Sublist.trans (List.filter_sublist _) h2
  · exact h2

theorem persist_count_other (cfg : Config) (now : Int) (a b : String) (tok : Token)
    (pending : List TokenRow) (nid : Nat) (hab : a ≠ b) :
    (rowsFor (persistPendingPure cfg now a tok pending nid) b).length
      ≤ (rowsFor pending b).length := by
  obtain ⟨p3, hsub, hshape⟩ := persistPendingPure_shape cfg now a tok pending nid
  rw [hshape]
  have h1 : rowsFor (p3 ++ [newRowOf cfg a tok nid]) b = rowsFor p3 b := by
    simp [rowsFor, newRowOf, List.filter_append, beq_eq_false_iff_ne, hab]
  rw [h1]
  exact (hsub.filter _).length_le

theorem persist_wf (cfg : Config) (now : Int) (a : String) (tok : Token)
    (pending : List TokenRow) (nid : Nat)
    (hnd : (pending.map TokenRow.kid).Nodup)
    (hb : ∀ r ∈ pending, r.kid < nid) :
    ((persistPendingPure cfg now a tok pending nid).map TokenRow.kid).Nodup
    ∧ ∀ r ∈ persistPendingPure cfg now a tok pending nid, r.kid < nid + 1 := by
  obtain ⟨p3, hsub, hshape⟩ := persistPendingPure_shape cfg now a tok pending nid
  rw [hshape]
  constructor
  · rw [List.map_append, List.nodup_append]
    refine ⟨(hsub.map TokenRow.kid).nodup hnd, List.nodup_singleton _, ?_⟩
    intro x hx
    have hxp : x ∈ pending.map TokenRow.kid := (hsub.map TokenRow.kid).subset hx
    rcases List.mem_map.mp hxp with ⟨r, hr, rfl⟩
    have := hb r hr
    simp only [newRowOf, List.map_cons, List.map_nil, List.mem_cons, List.not_mem_nil,
      or_false]
    omega
  · intro r hr
    rcases List.mem_append.mp hr with hr1 | hr1
    · exact Nat.lt_succ_of_lt (hb r (hsub.subset hr1))
    · rcases List.mem_singleton.mp hr1 with rfl
      exact Nat.lt_succ_self nid

theorem persist_iat (cfg : Config) (now : Int) (a : String) (tok : Token)
    (pending : List TokenRow) (nid : Nat)
    (hiat : iatBounded pending)
    (htok : getIntClaim tok.payload "iat" sysMaxsize < sysMaxsize) :
    iatBounded (persistPendingPure cfg now a tok pending nid) := by
  obtain ⟨p3, hsub, hshape⟩ := persistPendingPure_shape cfg now a tok pending nid
  rw [hshape]
  intro r hr
  rcases List.mem_append.mp hr with hr1 | hr1
  · exact hiat r (hsub.subset hr1)
  · rcases List.mem_singleton.mp hr1 with rfl
    exact htok

theorem rowsFor_map_updateTok (l : List TokenRow) (tid : Nat) (tok : Token) (b : String) :
    (rowsFor (l.map (updateTok tid tok)) b).length = (rowsFor l b).length := by
  unfold rowsFor
  rw [List.filter_map, List.length_map]
  have h : ∀ x ∈ l, ((fun r => r.account == b) ∘ updateTok tid tok) x
      = (fun r => r.account == b) x := by
    intro x _
    simp only [Function.comp_apply, updateTok]
    split <;> rfl
  rw [List.filter_congr h]

theorem kids_map_updateTok (l : List TokenRow) (tid : Nat) (tok : Token) :
    (l.map (updateTok tid tok)).map TokenRow.kid = l.map TokenRow.kid := by
  rw [List.map_map]
  refine List.map_congr_left ?_
  intro x _
  simp only [Function.comp_apply, updateTok]
  split <;> rfl

theorem iat_map_updateTok (l : List TokenRow) (tid : Nat) (tok : Token)
    (hiat : iatBounded l)
    (htok : getIntClaim tok.payload "iat" sysMaxsize < sysMaxsize) :
    iatBounded (l.map (updateTok tid tok)) := by
  intro r hr
  rcases List.mem_map.mp hr with ⟨r0, hr0, rfl⟩
  unfold rowIat updateTok
  split
  · exact htok
  · exact hiat r0 hr0


/-! ## The limit invariant (C1) -/

theorem buildPairClaims_iat (env : IssueEnv) (account_id : String)
    (account_data : AccountData) (account_claims : Option Dict) :
    dlookup (buildPairClaims env account_id account_data account_claims) "iat"
      = some (.int env.now) := by
  unfold buildPairClaims
  dsimp only
  rw [dlookup_dinsert_ne _ _ _ _ (by decide), dlookup_dinsert_ne _ _ _ _ (by decide)]
  split
  · rw [dlookup_dinsert_ne _ _ _ _ (by decide), dlookup_dinsert_ne _ _ _ _ (by decide),
      dlookup_dinsert_self]
  · rw [dlookup_dinsert_ne _ _ _ _ (by decide), dlookup_dinsert_self]

theorem buildPairClaims_iat_int (env : IssueEnv) (account_id : String)
    (account_data : AccountData) (account_claims : Option Dict) :
    getIntClaim (buildPairClaims env account_id account_data account_claims) "iat" sysMaxsize
      = env.now := by
  unfold getIntClaim
  rw [buildPairClaims_iat]

theorem issue_tokens_inv (faults : Nat → Bool) (cfg : Config) (reg : Registry)
    (env : IssueEnv) (account_id : String) (account_claims : Option Dict) (st : DbSt)
    (hinv : storeInv cfg st.committed st.nextId)
    (hL : 0 < cfg.accountLimit)
    (hnow : env.now < sysMaxsize) :
    storeInv cfg
      ((issue_tokens faults cfg reg env account_id account_claims false st).2.1).committed
      ((issue_tokens faults cfg reg env account_id account_claims false st).2.1).nextId := by
  obtain ⟨⟨hnd, hbound⟩, hiat, hcount⟩ := hinv
  rcases hres : issue_tokens faults cfg reg env account_id account_claims false st
    with ⟨reg2, st2, res⟩
  cases res with
  | error e =>
      obtain ⟨hcomm, hle⟩ := issue_tokens_err faults cfg reg env account_id account_claims
        st reg2 st2 e hres
      simp only [hres]
      rw [hcomm]
      exact ⟨⟨hnd, fun r hr => Nat.lt_of_lt_of_le (hbound r hr) hle⟩, hiat, hcount⟩
  | ok data =>
      obtain ⟨ad, stP, tid, hreg, hpersist, hrt, hat, hcomm, hnid⟩ :=
        issue_tokens_ok_char faults cfg reg env account_id account_claims st reg2 st2
          data hres
      obtain ⟨hpend, hcommP, hnidP, hsel⟩ := persist_ok_char faults cfg env.now account_id
        _ _ stP tid hpersist
      simp only [hres]
      rw [hcomm, hnid, hpend]
      simp only [bump] at hnidP ⊢
      rw [hnidP]
      have hiatR : getIntClaim data.refreshToken.payload "iat" sysMaxsize < sysMaxsize := by
        rw [hrt]
        unfold jwt_encode
        rw [buildPairClaims_iat_int]
        exact hnow
      have hiatC : getIntClaim
          (jwt_encode (buildPairClaims env account_id ad account_claims)
            cfg.encodingKey cfg.defaultAlgorithm "R0").payload "iat" sysMaxsize
          < sysMaxsize := by
        unfold jwt_encode
        rw [buildPairClaims_iat_int]
        exact hnow
      obtain ⟨hnd2, hb2⟩ := persist_wf cfg env.now account_id _ st.committed st.nextId hnd
        (fun r hr => hbound r hr)
      refine ⟨⟨?_, ?_⟩, ?_, ?_⟩
      · rw [kids_map_updateTok]
        exact hnd2
      · intro r hr
        rcases List.mem_map.mp hr with ⟨r0, hr0, rfl⟩
        have := hb2 r0 hr0
        unfold updateTok
        split
        · simpa using this
        · exact this
      · exact iat_map_updateTok _ tid data.refreshToken
          (persist_iat cfg env.now account_id _ st.committed st.nextId hiat hiatC) hiatR
      · intro b
        rw [rowsFor_map_updateTok]
        by_cases hab : account_id = b
        · subst hab
          exact persist_count_le cfg env.now account_id _ st.committed st.nextId hnd hiat
            hL (hcount account_id)
        · calc ((rowsFor (persistPendingPure cfg env.now account_id _ st.committed
                st.nextId) b).length : Int)
              ≤ ((rowsFor st.committed b).length : Int) := by
                exact_mod_cast persist_count_other cfg env.now account_id b _
                  st.committed st.nextId hab
            _ ≤ cfg.accountLimit := hcount b


theorem runCalls_inv (cfg : Config) (reg : Registry) :
    ∀ (calls : List CallSpec) (st : DbSt),
      storeInv cfg st.committed st.nextId →
      0 < cfg.accountLimit →
      (∀ c ∈ calls, c.env.now < sysMaxsize) →
      storeInv cfg (runCalls cfg reg st calls).committed (runCalls cfg reg st calls).nextId
  | [], _, hinv, _, _ => hinv
  | c :: rest, st, hinv, hL, hnow => by
      rw [runCalls]
      exact runCalls_inv cfg reg rest _
        (issue_tokens_inv c.faults cfg reg c.env c.account_id c.account_claims st hinv hL
          (hnow c (List.mem_cons_self c rest)))
        hL (fun x hx => hnow x (List.mem_cons_of_mem c hx))

/-- Claim C1 (limit invariant): for every account and every configured
account limit N > 0, after any sequence of `issue_tokens` calls from an
empty store the number of persisted non-expired token rows for that account
(at any probe time `t`) never exceeds N — in fact the total number of
persisted rows for the account never exceeds N. -/
theorem claim_C1_limit_invariant (cfg : Config) (reg : Registry) (calls : List CallSpec)
    (a : String) (t : Int)
    (hL : 0 < cfg.accountLimit)
    (hnow : ∀ c ∈ calls, c.env.now < sysMaxsize) :
    ((liveRows (runCalls cfg reg dbInit calls).committed a t).length : Int)
      ≤ cfg.accountLimit
    ∧ ((rowsFor (runCalls cfg reg dbInit calls).committed a).length : Int)
      ≤ cfg.accountLimit := by
  have hinv0 : storeInv cfg dbInit.committed dbInit.nextId := by
    refine ⟨⟨List.nodup_nil, ?_⟩, ?_, ?_⟩
    · intro r hr
      simp [dbInit] at hr
    · intro r hr
      simp [dbInit] at hr
    · intro b
      simp only [dbInit, rowsFor, List.filter_nil, List.length_nil, Nat.cast_zero]
      omega
  obtain ⟨_, _, hcount⟩ := runCalls_inv cfg reg calls dbInit hinv0 hL hnow
  refine ⟨?_, hcount a⟩
  calc ((liveRows (runCalls cfg reg dbInit calls).committed a t).length : Int)
      ≤ ((rowsFor (runCalls cfg reg dbInit calls).committed a).length : Int) := by
        exact_mod_cast List.length_filter_le _ _
    _ ≤ cfg.accountLimit := hcount a

/-- Three consecutive issuances for `u1` (scenario 1 of §8). -/
def callsW : List CallSpec :=
  [ { faults := fun _ => false, env := { now := 0, jti := "j1" },
      account_id := "u1", account_claims := none },
    { faults := fun _ => false, env := { now := 1, jti := "j2" },
      account_id := "u1", account_claims := none },
    { faults := fun _ => false, env := { now := 2, jti := "j3" },
      account_id := "u1", account_claims := none } ]

/-- Witness for C1 at the concrete scenario. -/
theorem claim_C1_witness :
    ((liveRows (runCalls cfgW regW dbInit callsW).committed "u1" 2).length : Int)
      ≤ cfgW.accountLimit
    ∧ ((rowsFor (runCalls cfgW regW dbInit callsW).committed "u1").length : Int)
      ≤ cfgW.accountLimit :=
  claim_C1_limit_invariant cfgW regW callsW "u1" 2 (by decide) (by decide)


/-! ## Storage-id retrieval and kid encoding (C5) -/

theorem persist_selectNewIds (cfg : Config) (now : Int) (a : String) (tok : Token)
    (pending : List TokenRow) (nid : Nat)
    (hb : ∀ r ∈ pending, r.kid < nid) :
    selectNewIds (persistPendingPure cfg now a tok pending nid) a
      (((selectRecs pending a).foldl (scanStep now) scanInit).existingIds) = [nid] := by
  obtain ⟨p3, hsub, hshape⟩ := persistPendingPure_shape cfg now a tok pending nid
  rw [hshape]
  have hex : ((selectRecs pending a).foldl (scanStep now) scanInit).existingIds
      = (rowsFor pending a).map TokenRow.kid := by
    rw [scan_existing_eq]
    simp [scanInit, selectRecs_map_fst]
  rw [hex]
  have hrows : rowsFor (p3 ++ [newRowOf cfg a tok nid]) a
      = rowsFor p3 a ++ [newRowOf cfg a tok nid] := by
    simp [rowsFor, newRowOf, List.filter_append]
  have hp3mem : ∀ r ∈ rowsFor p3 a, r.kid ∈ (rowsFor pending a).map TokenRow.kid := by
    intro r hr
    rcases List.mem_filter.mp hr with ⟨hrp, hracc⟩
    exact List.mem_map_of_mem TokenRow.kid
      (List.mem_filter.mpr ⟨hsub.subset hrp, hracc⟩)
  unfold selectNewIds
  by_cases hcase : ((rowsFor pending a).map TokenRow.kid).isEmpty
  · rw [if_pos hcase]
    have hnil : rowsFor pending a = [] := by
      rcases h0 : rowsFor pending a with _ | ⟨x, xs⟩
      · rfl
      · rw [h0] at hcase
        simp at hcase
    have hp3nil : rowsFor p3 a = [] := by
      rcases h0 : rowsFor p3 a with _ | ⟨x, xs⟩
      · rfl
      · exfalso
        have := hp3mem x (h0 ▸ List.mem_cons_self x xs)
        rw [hnil] at this
        simp at this
    rw [hrows, hp3nil]
    simp [newRowOf]
  · rw [if_neg hcase]
    rw [hrows, List.map_append, List.filter_append]
    have h1 : ((rowsFor p3 a).map TokenRow.kid).filter
        (fun k => !(((rowsFor pending a).map TokenRow.kid).contains k)) = [] := by
      rw [List.filter_eq_nil_iff]
      intro k hk
      rcases List.mem_map.mp hk with ⟨r, hr, rfl⟩
      have hmem := hp3mem r hr
      simp [List.elem_iff, hmem]
    have h2 : (([newRowOf cfg a tok nid] : List TokenRow).map TokenRow.kid).filter
        (fun k => !(((rowsFor pending a).map TokenRow.kid).contains k)) = [nid] := by
      have hnmem : nid ∉ (rowsFor pending a).map TokenRow.kid := by
        intro hmem
        rcases List.mem_map.mp hmem with ⟨r, hr, hrk⟩
        have := hb r (List.mem_of_mem_filter hr)
        omega
      have hnmem2 : ∀ x ∈ rowsFor pending a, ¬x.kid = nid := by
        intro x hx heq
        have := hb x (List.mem_of_mem_filter hx)
        omega
      simp only [newRowOf, List.map_cons, List.map_nil, List.filter_cons]
      simp [List.elem_iff, hnmem]
      try exact hnmem2
    rw [h1, h2]
    rfl

theorem toDigitsCore_length_ge (b : Nat) : ∀ (fuel n : Nat) (ds : List Char),
    ds.length ≤ (Nat.toDigitsCore b fuel n ds).length
  | 0, _, _ => Nat.le_refl _
  | fuel+1, n, ds => by
      unfold Nat.toDigitsCore
      dsimp only
      split
      · simp
      · calc ds.length ≤ (Nat.digitChar (n % b) :: ds).length := by simp
          _ ≤ _ := toDigitsCore_length_ge b fuel (n / b) _

theorem repr_length_ge_two (n : Nat) (h : 10 ≤ n) : 2 ≤ (Nat.repr n).length := by
  have h1 : ¬ n / 10 = 0 := by
    have : 1 ≤ n / 10 := (Nat.one_le_div_iff (by omega)).mpr h
    omega
  have hstep : Nat.toDigits 10 n
      = Nat.toDigitsCore 10 n (n / 10) [Nat.digitChar (n % 10)] := by
    conv_lhs => unfold Nat.toDigits Nat.toDigitsCore
    dsimp only
    rw [if_neg h1]
  have h2 : 2 ≤ (Nat.toDigits 10 n).length := by
    rw [hstep]
    obtain ⟨m, rfl⟩ : ∃ m, n = m + 1 := ⟨n - 1, by omega⟩
    unfold Nat.toDigitsCore
    dsimp only
    split
    · simp
    · calc 2 = ([Nat.digitChar ((m + 1) / 10 % 10), Nat.digitChar ((m + 1) % 10)]
            : List Char).length := by simp
        _ ≤ _ := toDigitsCore_length_ge 10 m _ _
  calc 2 ≤ (Nat.toDigits 10 n).length := h2
    _ = (Nat.repr n).length := rfl

theorem repr_ne_zero_str (n : Nat) (h : 1 ≤ n) : Nat.repr n ≠ "0" := by
  rcases Nat.lt_or_ge n 10 with h10 | h10
  · interval_cases n <;> decide
  · intro he
    have h2 := repr_length_ge_two n h10
    rw [he] at h2
    have h1 : ("0" : String).length = 1 := rfl
    omega

theorem kid_ne_R0 (id : Nat) (h : 1 ≤ id) : ("R" ++ toString id) ≠ "R0" := by
  intro he
  apply repr_ne_zero_str id h
  have hdata : ("R" ++ toString id).data = ("R0" : String).data := congrArg String.data he
  have hdata2 : ("R" : String).data ++ (toString id).data
      = ("R" : String).data ++ ("0" : String).data := hdata
  have h3 : (toString id).data = ("0" : String).data :=
    List.append_cancel_left hdata2
  calc Nat.repr id = String.mk (Nat.repr id).data := rfl
    _ = String.mk ("0" : String).data := congrArg String.mk h3
    _ = "0" := rfl


/-- Claim C5 (header kid encoding and two-phase protocol): every successful
locally issued pair carries `kid = "R" + storage id` on the refresh token
and `kid = "A" + storage id` on the access token, the storage id being that
of the refresh token's persisted row; the Phase-1 candidate (signed with
`kid = "R0"`) is never the returned refresh token. -/
theorem claim_C5_kid_encoding (faults : Nat → Bool) (cfg : Config) (reg : Registry)
    (env : IssueEnv) (account_id : String) (account_claims : Option Dict)
    (st : DbSt) (reg' : Registry) (st' : DbSt) (data : TokenData)
    (hwf : rowsWf st.committed st.nextId)
    (hn : 1 ≤ st.nextId)
    (h : issue_tokens faults cfg reg env account_id account_claims false st
          = (reg', st', .ok data)) :
    ∃ id : Nat, 1 ≤ id
      ∧ data.refreshToken.kid = "R" ++ toString id
      ∧ data.accessToken.kid = "A" ++ toString id
      ∧ data.refreshToken.kid ≠ "R0"
      ∧ ∃ r ∈ st'.committed, r.kid = id ∧ r.token = data.refreshToken := by
  obtain ⟨ad, stP, tid, hreg, hpersist, hrt, hat, hcomm, hnid⟩ :=
    issue_tokens_ok_char faults cfg reg env account_id account_claims st reg' st' data h
  obtain ⟨hpend, hcommP, hnidP, hsel⟩ :=
    persist_ok_char faults cfg env.now account_id _ _ stP tid hpersist
  dsimp only at hpend hsel
  simp only [bump] at hpend hsel
  have hid : tid = st.nextId := by
    rw [hpend] at hsel
    rw [persist_selectNewIds cfg env.now account_id _ st.committed st.nextId
      (fun r hr => hwf.2 r hr)] at hsel
    simpa using hsel.symm
  subst hid
  refine ⟨st.nextId, hn, ?_, ?_, ?_, ?_⟩
  · rw [hrt]
    rfl
  · rw [hat]
    rfl
  · rw [hrt]
    exact kid_ne_R0 st.nextId hn
  · rw [hcomm, hpend]
    obtain ⟨p3, hsub, hshape⟩ := persistPendingPure_shape cfg env.now account_id _
      st.committed st.nextId
    rw [hshape]
    refine ⟨updateTok st.nextId data.refreshToken (newRowOf cfg account_id _ st.nextId),
      List.mem_map_of_mem _ (List.mem_append_right _ (List.mem_singleton_self _)), ?_, ?_⟩
    · simp [updateTok, newRowOf]
    · simp [updateTok, newRowOf]


def refreshW : Token :=
  jwt_encode [("iss", .str "svc"), ("jti", .str "jti1"), ("sub", .str "u1"),
    ("iat", .int 0), ("valid-from", .iso 0), ("exp", .int 3600), ("valid-until", .iso 3600)]
    "K" "HS256" "R1"

def accessW : Token :=
  jwt_encode [("iss", .str "svc"), ("jti", .str "jti1"), ("sub", .str "u1"),
    ("iat", .int 0), ("valid-from", .iso 0), ("exp", .int 60), ("valid-until", .iso 3600)]
    "K" "HS256" "A1"

def rowW : TokenRow :=
  { kid := 1, account := "u1", token := refreshW, algorithm := "HS256", decoder := "D" }

def stW5 : DbSt :=
  { committed := [rowW], pending := [rowW], nextId := 2, opIdx := 6, rolledBack := false }

def dataW5 : TokenData :=
  { accessToken := accessW, createdIn := some (.int 0), expiresIn := some (.int 60),
    refreshToken := refreshW }

/-- Witness for C5: the first issuance for `u1` gets storage id 1, kids
`R1`/`A1`, and the stored row holds the definitive refresh token. -/
theorem claim_C5_witness :
    ∃ id : Nat, 1 ≤ id
      ∧ dataW5.refreshToken.kid = "R" ++ toString id
      ∧ dataW5.accessToken.kid = "A" ++ toString id
      ∧ dataW5.refreshToken.kid ≠ "R0"
      ∧ ∃ r ∈ stW5.committed, r.kid = id ∧ r.token = dataW5.refreshToken :=
  claim_C5_kid_encoding (fun _ => false) cfgW regW envW "u1" none dbInit regW stW5 dataW5
    ⟨by simp [dbInit], by simp [dbInit]⟩ (by decide) (by rfl)


end PyPomesJwt

namespace PyPomesJwt

/-- Claim C3 (amended): in an own-transaction `issue_tokens` call, when the
persist phase succeeds and the `db_update` of the definitive refresh token
fails, a rollback is issued before the error is returned; and every failing
own-transaction call (whatever store operation failed) leaves the committed
store unchanged, so no partial state is observably persisted.  Failures
raised inside `_jwt_persist_token` propagate without any rollback (see the
counterexample). -/
theorem claim_C3_rollback (faults : Nat → Bool) (cfg : Config) (reg : Registry)
    (env : IssueEnv) (account_id : String) (account_claims : Option Dict)
    (st stP : DbSt) (account_data : AccountData) (token_id : Nat)
    (hreg : regGet reg account_id = some account_data)
    (hconn : faults st.opIdx = false)
    (hpersist : jwt_persist_token faults cfg env.now account_id
        (jwt_encode (buildPairClaims env account_id account_data account_claims)
          cfg.encodingKey cfg.defaultAlgorithm "R0")
        { bump st with pending := st.committed } = (stP, .ok token_id))
    (hupd : faults stP.opIdx = true) :
    ((issue_tokens faults cfg reg env account_id account_claims false st).2.1).rolledBack
        = true
    ∧ (issue_tokens faults cfg reg env account_id account_claims false st).2.2
        = .error "db_update failed"
    ∧ ((issue_tokens faults cfg reg env account_id account_claims false st).2.1).committed
        = st.committed
    ∧ (∀ (f2 : Nat → Bool) (st2 : DbSt) (e : String) (reg2 : Registry) (st3 : DbSt),
        issue_tokens f2 cfg reg env account_id account_claims false st2
          = (reg2, st3, .error e) →
        st3.committed = st2.committed) := by
  have hcommP : stP.committed = st.committed :=
    (persist_frame_eq faults cfg env.now account_id _ _ stP (.ok token_id) hpersist).1
  rcases hres : issue_tokens faults cfg reg env account_id account_claims false st
    with ⟨reg2, st2, res⟩
  dsimp only
  unfold issue_tokens at hres
  rw [hreg] at hres
  dsimp only at hres
  split at hres
  · rename_i hcond
    exfalso
    have h2 := hcond.2
    simp [opFails, hconn] at h2
  · split at hres
    · rename_i st1 e1 heq
      exfalso
      have hdet := hpersist.symm.trans heq
      simp at hdet
    · rename_i st1 tid1 heq
      have hdet := hpersist.symm.trans heq
      simp only [Prod.mk.injEq, Except.ok.injEq] at hdet
      obtain ⟨hst1, htid⟩ := hdet
      subst hst1
      subst htid
      split at hres
      · simp only [Prod.mk.injEq] at hres
        obtain ⟨hr1, hr2, hr3⟩ := hres
        subst hr2
        subst hr3
        refine ⟨rfl, rfl, ?_, ?_⟩
        · simp [opFails, hupd, bump, hcommP]
        · intro f2 stb e regb stc hx
          exact (issue_tokens_err f2 cfg reg env account_id account_claims
            stb regb stc e hx).1
      · rename_i hcond2
        exact absurd ⟨rfl, by simp [opFails, hupd]⟩ hcond2

end PyPomesJwt

namespace PyPomesJwt

/-- Fault schedule for the C3 witness: the sixth store operation
(the `db_update` of the definitive refresh token) fails. -/
def c3F : Nat → Bool := fun n => n == 4

/-- Concrete post-persist state reached by the C3 witness run. -/
def c3stP : DbSt :=
  { committed := []
    pending := [{ kid := 1
                  account := "u1"
                  token := { alg := "HS256"
                             kid := "R0"
                             payload := [("iss", JVal.str "svc"),
                                         ("jti", JVal.str "jti1"),
                                         ("sub", JVal.str "u1"),
                                         ("iat", JVal.int 0),
                                         ("valid-from", JVal.iso 0),
                                         ("exp", JVal.int 3600),
                                         ("valid-until", JVal.iso 3600)]
                             key := "K" }
                  algorithm := "HS256"
                  decoder := "D" }]
    nextId := 2
    opIdx := 4
    rolledBack := false }

theorem claim_C3_witness :
    ((issue_tokens c3F cfgW regW envW "u1" none false dbInit).2.1).rolledBack = true
    ∧ (issue_tokens c3F cfgW regW envW "u1" none false dbInit).2.2
        = .error "db_update failed"
    ∧ ((issue_tokens c3F cfgW regW envW "u1" none false dbInit).2.1).committed
        = dbInit.committed
    ∧ (∀ (f2 : Nat → Bool) (st2 : DbSt) (e : String) (reg2 : Registry) (st3 : DbSt),
        issue_tokens f2 cfgW regW envW "u1" none false st2 = (reg2, st3, .error e) →
        st3.committed = st2.committed) :=
  claim_C3_rollback c3F cfgW regW envW "u1" none dbInit c3stP adW 1
    (by rfl) (by rfl) (by rfl) (by rfl)

/-- Fault schedule for the C3 counterexample: the `db_select` of existing
tokens, issued inside `_jwt_persist_token`, fails. -/
def c3cF : Nat → Bool := fun n => n == 1

/-- Claim C3 counterexample: a `db_select` failure inside the persist phase
of an own-transaction `issue_tokens` call raises without any rollback being
issued, contradicting the claim that any failure in the transaction triggers
a rollback. -/
theorem claim_C3_counterexample :
    (issue_tokens c3cF cfgW regW envW "u1" none false dbInit).2.2
        = .error "db_select failed"
    ∧ ((issue_tokens c3cF cfgW regW envW "u1" none false dbInit).2.1).rolledBack
        = false := by
  exact ⟨by rfl, by rfl⟩

end PyPomesJwt

namespace PyPomesJwt

/-! ## Claims C2, C4, C6, C8, C9 -/

/-- Fault-free store schedule. -/
def noF : Nat → Bool := fun _ => false

/-- A configuration with account limit 1, for the eviction scenario. -/
def cfgC2 : Config :=
  { encodingKey := "K", decodingKey := "D", defaultAlgorithm := "HS256", accountLimit := 1 }

/-- A stored row for `u1` that is expired at time 100 (`exp` 50, `iat` 0). -/
def rowA : TokenRow :=
  { kid := 1, account := "u1",
    token := { alg := "HS256", kid := "R1",
               payload := [("iat", JVal.int 0), ("exp", JVal.int 50)], key := "K" },
    algorithm := "HS256", decoder := "D" }

/-- A stored row for `u1` that is live at time 100 (`exp` 200, `iat` 10):
the oldest (indeed only) live row. -/
def rowB : TokenRow :=
  { kid := 2, account := "u1",
    token := { alg := "HS256", kid := "R2",
               payload := [("iat", JVal.int 10), ("exp", JVal.int 200)], key := "K" },
    algorithm := "HS256", decoder := "D" }

/-- Store holding exactly `rowA` (expired) and `rowB` (live) for `u1`. -/
def stC2 : DbSt :=
  { committed := [rowA, rowB], pending := [], nextId := 3, opIdx := 0, rolledBack := false }

/-- Issuance instant 100 for the eviction scenario. -/
def envC2 : IssueEnv := { now := 100, jti := "jti2" }

/-- Claim C2 refuted (code bug): with `account_limit = 1` and a live row
count already at the limit, the spec requires the oldest live row (`rowB`)
to be evicted; instead the code picks the smallest-`iat` row over ALL the
account's rows — here the already-expired `rowA` — so the extra delete is a
no-op: the issuance succeeds, `rowB` survives, and the resulting live count
2 exceeds the limit 1. -/
theorem claim_C2_eviction_bug :
    (∃ data, (issue_tokens noF cfgC2 regW envC2 "u1" none false stC2).2.2 = .ok data)
    ∧ cfgC2.accountLimit = 1
    ∧ ((liveRows stC2.committed "u1" envC2.now).length : Int) = cfgC2.accountLimit
    ∧ rowB ∈ liveRows stC2.committed "u1" envC2.now
    ∧ (∀ r ∈ liveRows stC2.committed "u1" envC2.now, rowIat rowB ≤ rowIat r)
    ∧ rowB ∈ (issue_tokens noF cfgC2 regW envC2 "u1" none false stC2).2.1.committed
    ∧ ((liveRows (issue_tokens noF cfgC2 regW envC2 "u1" none false stC2).2.1.committed
          "u1" envC2.now).length : Int)
        = cfgC2.accountLimit + 1 := by
  refine ⟨⟨_, by rfl⟩, by rfl, by rfl, by decide, by decide, by decide, by rfl⟩

/-- The token produced by the C4 run: `issue_token` with nature `"R"`. -/
def c4tok : Token := okTok (issue_token cfgW regW envW "u1" "R" 60 none none)

/-- Claim C4 refuted (code bug): the spec reserves nature `"R"` for refresh
tokens and requires `IssueToken(account, nature="R", duration=60)` to fail
with `InvalidParameter`; the code's validation only checks that `nature` is
one character in `["A","Z"]`, so `"R"` passes and a token with header
`kid = "R"` is issued. -/
theorem claim_C4_nature_R_accepted :
    issue_token cfgW regW envW "u1" "R" 60 none none = .ok c4tok
    ∧ c4tok.kid = "R" := by
  exact ⟨by rfl, by rfl⟩

/-- The token produced by the C6 run: caller-supplied `iss` and `nbf`. -/
def c6tok : Token :=
  okTok (issue_token cfgW regW envW "u1" "B" 60 none
    (some [("iss", JVal.str "evil"), ("nbf", JVal.int 5)]))

/-- Claim C6 refuted (code bug): the spec says caller-supplied `iat, iss,
exp, jti, nbf, sub` are ignored/overwritten.  In the code only `jti, sub,
iat, exp` (and `nbf` when the grace interval is truthy) are re-inserted
after the caller's claims are merged, so a caller-supplied `iss` always
survives, and a caller-supplied `nbf` survives whenever the grace interval
is falsy — in both `issue_token` and the pair claim set of `issue_tokens`.
(`sub` is indeed overwritten to the account id.) -/
theorem claim_C6_claims_not_protected :
    issue_token cfgW regW envW "u1" "B" 60 none
        (some [("iss", JVal.str "evil"), ("nbf", JVal.int 5)]) = .ok c6tok
    ∧ dlookup c6tok.payload "iss" = some (.str "evil")
    ∧ dlookup c6tok.payload "nbf" = some (.int 5)
    ∧ dlookup c6tok.payload "sub" = some (.str "u1")
    ∧ dlookup (buildPairClaims envW "u1" adW
        (some [("iss", JVal.str "evil"), ("nbf", JVal.int 5)])) "iss"
        = some (.str "evil")
    ∧ dlookup (buildPairClaims envW "u1" adW
        (some [("iss", JVal.str "evil"), ("nbf", JVal.int 5)])) "nbf"
        = some (.int 5) := by
  exact ⟨by rfl, by rfl, by rfl, by rfl, by rfl, by rfl⟩

/-- Claim C8 refuted (code bug): `remove_account` never reaches the
database delete.  The statement it builds reads `JwtDbConfig.value` — a
class-level attribute access on the enum class, which has no such member —
so every call pops the in-memory entry and then raises `AttributeError`;
the persisted rows are never purged and no boolean is returned, whether or
not an entry existed. -/
theorem claim_C8_remove_account_raises (dbc : JwtDbConfigT) (reg : Registry)
    (committed : List TokenRow) (account_id : String) :
    remove_account dbc reg committed account_id
      = ((regPop reg account_id).1, .error "AttributeError: value") := by
  unfold remove_account
  rcases hp : regPop reg account_id with ⟨r1, ad⟩
  rfl

/-- Claim C9 confirmed: `issue_tokens` never mutates the registry — the
registered entry it returns is exactly the one `add_account` stored, for
every fault schedule, account, claim set, transaction mode and store
state. -/
theorem claim_C9_registry_frame (faults : Nat → Bool) (cfg : Config) (reg : Registry)
    (env : IssueEnv) (account_id : String) (account_claims : Option Dict)
    (db_conn : Bool) (st : DbSt) :
    (issue_tokens faults cfg reg env account_id account_claims db_conn st).1 = reg := by
  unfold issue_tokens
  dsimp only
  repeat' split
  all_goals rfl

end PyPomesJwt

namespace PyPomesJwt

/-- Claim C7 confirmed: `jwt_verify_request` answers the 401 response
`"Authorization failed"` exactly when the `Authorization` header is absent
or not of the form `Bearer <token>`; otherwise the text after the first
space is passed to the token validator, whose failure text is surfaced
unchanged with status 401, and the request passes (`none`) exactly when the
validator accepts. -/
theorem claim_C7_verify (validate : String → Except String Dict) (s : String) :
    jwt_verify_request validate none
      = some { response := "Authorization failed", status := 401 }
    ∧ ((s != "" && pyStartsWith s "Bearer ") = false →
        jwt_verify_request validate (some s)
          = some { response := "Authorization failed", status := 401 })
    ∧ ((s != "" && pyStartsWith s "Bearer ") = true →
        jwt_verify_request validate (some s)
          = (match validate ((pySplitOnSpace s).getD 1 "") with
             | .ok _ => none
             | .error e => some { response := e, status := 401 }))
    ∧ (jwt_verify_request validate (some s) = none ↔
        ((s != "" && pyStartsWith s "Bearer ") = true
         ∧ ∃ d, validate ((pySplitOnSpace s).getD 1 "") = .ok d)) := by
  refine ⟨rfl, ?_, ?_, ?_⟩
  · intro h
    simp [jwt_verify_request, h]
  · intro h
    simp only [jwt_verify_request, h, if_true]
  · constructor
    · intro h
      by_cases hc : (s != "" && pyStartsWith s "Bearer ") = true
      · refine ⟨hc, ?_⟩
        rcases hv : validate ((pySplitOnSpace s).getD 1 "") with e | d
        · simp only [List.getD, List.get?_eq_getElem?] at hv
          simp [jwt_verify_request, hc, hv] at h
        · exact ⟨d, rfl⟩
      · simp only [Bool.not_eq_true] at hc
        simp [jwt_verify_request, hc] at h
    · rintro ⟨hc, d, hv⟩
      simp only [List.getD, List.get?_eq_getElem?] at hv
      simp [jwt_verify_request, hc, hv]

theorem claim_C7_witness :
    (jwt_verify_request (fun t => if t == "tok1" then .ok [] else .error "signature verification failed") none
      = some { response := "Authorization failed", status := 401 })
    ∧ (("Basic abcdef" != "" && pyStartsWith "Basic abcdef" "Bearer ") = false →
        jwt_verify_request (fun t => if t == "tok1" then .ok [] else .error "signature verification failed") (some "Basic abcdef")
          = some { response := "Authorization failed", status := 401 })
    ∧ (("Basic abcdef" != "" && pyStartsWith "Basic abcdef" "Bearer ") = true →
        jwt_verify_request (fun t => if t == "tok1" then .ok [] else .error "signature verification failed") (some "Basic abcdef")
          = (match (fun t => if t == "tok1" then (.ok [] : Except String Dict) else .error "signature verification failed") ((pySplitOnSpace "Basic abcdef").getD 1 "") with
             | .ok _ => none
             | .error e => some { response := e, status := 401 }))
    ∧ (jwt_verify_request (fun t => if t == "tok1" then .ok [] else .error "signature verification failed") (some "Basic abcdef") = none ↔
        (("Basic abcdef" != "" && pyStartsWith "Basic abcdef" "Bearer ") = true
         ∧ ∃ d, (fun t => if t == "tok1" then (.ok [] : Except String Dict) else .error "signature verification failed") ((pySplitOnSpace "Basic abcdef").getD 1 "") = .ok d)) :=
  claim_C7_verify (fun t => if t == "tok1" then .ok [] else .error "signature verification failed") "Basic abcdef"

end PyPomesJwt

namespace PyPomesJwt

/-- `d.get(k)` is `None` when no binding carries the key. -/
theorem dlookup_none_of_all_ne : ∀ (d : Dict) (k : String),
    (∀ kv ∈ d, (kv.1 == k) = false) → dlookup d k = none
  | [], _, _ => rfl
  | (k1, v1) :: rest, k, h => by
      have h1 : (k1 == k) = false := h (k1, v1) (List.mem_cons_self _ _)
      simp only [dlookup, h1, Bool.false_eq_true, if_false]
      exact dlookup_none_of_all_ne rest k (fun x hx => h x (List.mem_cons_of_mem _ hx))

/-- When the grace interval is falsy and neither the registered nor the
caller claims carry `nbf`, the pair claim set has no `nbf` and its
`valid-from` is the ISO form of the issuance instant. -/
theorem buildPairClaims_nbf_falsy (env : IssueEnv) (account_id : String)
    (ad : AccountData) (account_claims : Option Dict)
    (hg : pyTruthyInt ad.graceInterval = false)
    (h1 : ∀ kv ∈ ad.claims, (kv.1 == "nbf") = false)
    (h2 : ∀ kv ∈ account_claims.getD [], (kv.1 == "nbf") = false) :
    dlookup (buildPairClaims env account_id ad account_claims) "nbf" = none
    ∧ dlookup (buildPairClaims env account_id ad account_claims) "valid-from"
        = some (.iso env.now) := by
  unfold buildPairClaims
  dsimp only
  simp only [hg, Bool.false_eq_true, if_false]
  constructor
  · rw [dlookup_dinsert_ne _ "valid-until" "nbf" _ (by rfl),
        dlookup_dinsert_ne _ "exp" "nbf" _ (by rfl),
        dlookup_dinsert_ne _ "valid-from" "nbf" _ (by rfl),
        dlookup_dinsert_ne _ "iat" "nbf" _ (by rfl),
        dlookup_dinsert_ne _ "sub" "nbf" _ (by rfl),
        dlookup_dinsert_ne _ "jti" "nbf" _ (by rfl)]
    by_cases hd : pyTruthyDict account_claims = true
    · rw [if_pos hd, dlookup_dupdate_not_mem _ _ _ h2]
      exact dlookup_none_of_all_ne _ _ h1
    · rw [if_neg hd]
      exact dlookup_none_of_all_ne _ _ h1
  · rw [dlookup_dinsert_ne _ "valid-until" "valid-from" _ (by rfl),
        dlookup_dinsert_ne _ "exp" "valid-from" _ (by rfl)]
    exact dlookup_dinsert_self _ _ _

/-- When the grace interval is truthy, the pair claim set carries
`nbf = iat + grace`. -/
theorem buildPairClaims_nbf_truthy (env : IssueEnv) (account_id : String)
    (ad : AccountData) (account_claims : Option Dict)
    (hg : pyTruthyInt ad.graceInterval = true) :
    dlookup (buildPairClaims env account_id ad account_claims) "nbf"
      = some (.int (env.now + ad.graceInterval.getD 0)) := by
  unfold buildPairClaims
  dsimp only
  simp only [hg, if_true]
  rw [dlookup_dinsert_ne _ "valid-until" "nbf" _ (by rfl),
      dlookup_dinsert_ne _ "exp" "nbf" _ (by rfl),
      dlookup_dinsert_ne _ "valid-from" "nbf" _ (by rfl)]
  exact dlookup_dinsert_self _ _ _

/-- Claim C10 (amended): a grace interval of `0` behaves exactly as an
absent one — `issue_token` with `grace_interval=0` equals `issue_token`
with no grace interval, and the pair claim set of an account registered
with grace-interval `0` equals that of the same account with no grace
interval.  Provided neither the registered nor the caller-supplied claims
smuggle an `nbf` key of their own, the issued claim set then carries no
`nbf` and its `valid-from` equals the ISO issuance instant; and with a
nonzero grace interval `g` it carries `nbf = iat + g`.  (A caller-supplied
`nbf` survives the merge — see the counterexample.) -/
theorem claim_C10_grace_zero (cfg : Config) (reg : Registry) (env : IssueEnv)
    (account_id nature : String) (duration : Int) (claims : Option Dict)
    (ad : AccountData) (account_claims : Option Dict) (g : Int)
    (h1 : ∀ kv ∈ ad.claims, (kv.1 == "nbf") = false)
    (h2 : ∀ kv ∈ account_claims.getD [], (kv.1 == "nbf") = false)
    (hg : g ≠ 0) :
    issue_token cfg reg env account_id nature duration (some 0) claims
      = issue_token cfg reg env account_id nature duration none claims
    ∧ buildPairClaims env account_id { ad with graceInterval := some 0 } account_claims
      = buildPairClaims env account_id { ad with graceInterval := none } account_claims
    ∧ dlookup (buildPairClaims env account_id { ad with graceInterval := some 0 }
        account_claims) "nbf" = none
    ∧ dlookup (buildPairClaims env account_id { ad with graceInterval := some 0 }
        account_claims) "valid-from" = some (.iso env.now)
    ∧ dlookup (buildPairClaims env account_id { ad with graceInterval := some g }
        account_claims) "nbf" = some (.int (env.now + g)) := by
  refine ⟨by rfl, by rfl, ?_, ?_, ?_⟩
  · exact (buildPairClaims_nbf_falsy env account_id
      { ad with graceInterval := some 0 } account_claims (by rfl) h1 h2).1
  · exact (buildPairClaims_nbf_falsy env account_id
      { ad with graceInterval := some 0 } account_claims (by rfl) h1 h2).2
  · have := buildPairClaims_nbf_truthy env account_id
      { ad with graceInterval := some g } account_claims (by simp [pyTruthyInt, hg])
    simpa using this

theorem claim_C10_witness :
    issue_token cfgW regW envW "u1" "B" 60 (some 0) none
      = issue_token cfgW regW envW "u1" "B" 60 none none
    ∧ buildPairClaims envW "u1" { adW with graceInterval := some 0 } none
      = buildPairClaims envW "u1" { adW with graceInterval := none } none
    ∧ dlookup (buildPairClaims envW "u1" { adW with graceInterval := some 0 } none) "nbf"
      = none
    ∧ dlookup (buildPairClaims envW "u1" { adW with graceInterval := some 0 } none)
        "valid-from" = some (.iso envW.now)
    ∧ dlookup (buildPairClaims envW "u1" { adW with graceInterval := some 5 } none) "nbf"
      = some (.int (envW.now + 5)) :=
  claim_C10_grace_zero cfgW regW envW "u1" "B" 60 none adW none 5
    (by decide) (by decide) (by decide)

/-- The token produced by the C10 counterexample run: grace interval `0`
and a caller-supplied `nbf`. -/
def c10tok : Token :=
  okTok (issue_token cfgW regW envW "u1" "B" 60 (some 0) (some [("nbf", JVal.int 7)]))

/-- Claim C10 counterexample: with grace interval `0` the claim promises no
`nbf` in the issued token, yet a caller-supplied `nbf` survives the merge
and appears in the payload. -/
theorem claim_C10_counterexample :
    issue_token cfgW regW envW "u1" "B" 60 (some 0) (some [("nbf", JVal.int 7)])
      = .ok c10tok
    ∧ dlookup c10tok.payload "nbf" = some (.int 7) := by
  exact ⟨by rfl, by rfl⟩

end PyPomesJwt
